import Mathlib

/-!
Verification of the aws-news serverless handlers: the image derivative
service (`src/backend/services/image/index.js`, first file) and the
ElastiCache listing service (second file in the same source bundle).

The JavaScript source is shallowly embedded: byte buffers become `List Nat`,
JS strings become `String`, and the asynchronous control flow of each
handler is translated to an explicit run function that records the calls
made to the external collaborators together with the final outcome.

External SDK collaborators (DynamoDB, S3, Redis, Node `Buffer`) are
modelled behind the narrow interfaces the code consumes: the metadata
lookup is a world mapping each article id to one of three cases (an item
holding the base key, no item, or a rejection), the object store maps
keys to byte outcomes, and Redis range reads follow the documented
LRANGE index semantics.  Everything on the JavaScript side of those
interfaces is translated faithfully — in particular that a resolved
DynamoDB `get` yields the response *object*, not the projected string,
and which property accesses land on a pending promise.
-/

namespace AwsNews

/-- Byte buffers are lists of byte values. -/
abbrev Bytes := List Nat

/-! ## Variant key derivation (image handler, line 106)

The handler computes `imageBaseKey.replace` with the regex `\.jpg$` and a
template replacement of `-` followed by the size and `.jpg`.
The regex matches a literal `.jpg` at the end of the string; when it
matches, the suffix is replaced by `-` followed by the size and `.jpg`;
when it does not match, `String.prototype.replace` returns the string
unchanged.  Sizes are query-parameter strings; for the numeric widths of
the variant space no `$`-replacement pattern can occur, so the splice is
plain concatenation. -/

/-- The four characters of the asset-type suffix `.jpg`. -/
def jpgSuffix : List Char := ['.', 'j', 'p', 'g']

/-- Model of `imageBaseKey.replace(/\.jpg$/, ...)`: replace a trailing
`.jpg` with `-` ++ size ++ `.jpg`; leave the key unchanged when the
regex does not match. -/
def derive (baseKey size : String) : String :=
  if jpgSuffix <:+ baseKey.data then
    ⟨baseKey.data.take (baseKey.data.length - 4) ++ '-' :: (size.data ++ jpgSuffix)⟩
  else baseKey

/-! ## Decimal digits of a JS number

Template interpolation of a JS number renders it in decimal.  The printer
is written with explicit fuel so that it evaluates inside the kernel. -/

/-- One decimal digit character. -/
def digitCh (d : Nat) : Char :=
  match d with
  | 0 => '0' | 1 => '1' | 2 => '2' | 3 => '3' | 4 => '4'
  | 5 => '5' | 6 => '6' | 7 => '7' | 8 => '8' | _ => '9'

/-- Fuelled decimal printer: digits of `n`, most significant first. -/
def natDigitsAux : Nat → Nat → List Char
  | 0, _ => []
  | fuel + 1, n =>
    if n < 10 then [digitCh n]
    else natDigitsAux fuel (n / 10) ++ [digitCh (n % 10)]

/-- Decimal digits of a natural number, most significant first. -/
def natDigits (n : Nat) : List Char := natDigitsAux (n + 1) n

/-- Decimal rendering of a JS integer, with a leading minus sign when
negative. -/
def intDigits (i : Int) : List Char :=
  if i < 0 then '-' :: natDigits (-i).toNat else natDigits i.toNat

/-- Key derivation at a numeric width, as in the concrete spec scenario
(`variant 300`): the width is rendered in decimal before the splice. -/
def deriveN (baseKey : String) (width : Nat) : String :=
  derive baseKey ⟨natDigits width⟩

/-! ## Image service: state, collaborators and the handler run -/

/-- Outcome of the DynamoDB metadata lookup for an article id: `found`
records the base asset key the item holds in its projected `image`
field, `missing` is a successful response with no item, `unavailable` is
a rejected promise.  In all resolved cases the value the promise yields
is the GetItem response *object* (the `Item` envelope, or an empty
object), never the string itself — which is exactly what the handler
then misuses at line 106. -/
inductive LookupResult where
  | found (baseKey : String)
  | missing
  | unavailable
deriving DecidableEq

/-- Outcome a `getObject` for a given key would have: the object bytes, a
`NoSuchKey` rejection, or an availability rejection. -/
inductive GetOutcome where
  | found (b : Bytes)
  | noSuchKey
  | unavailable
deriving DecidableEq

/-- Errors that can escape the handlers.  `typeError` is a JavaScript
`TypeError` (property access or method call on `undefined`, or a bad
`Buffer.from` argument); the others tag rejected collaborator promises
and the listing service `throw`. -/
inductive JsErr where
  | typeError
  | lookupUnavailable
  | storeUnavailable
  | noSuchMethod
deriving DecidableEq

/-- Observable result of one image-handler invocation: a 200 response
with a base64 body, the structured 404 error return, or a thrown error. -/
inductive ImageOutcome where
  | ok200 (bodyB64 : List Char)
  | notFound404
  | thrown (e : JsErr)
deriving DecidableEq

/-- External world for one image request: metadata table, object store,
and whether `putObject` would succeed. -/
structure ImageState where
  meta : String → LookupResult
  store : String → GetOutcome
  putOk : Bool

/-- Trace of one image-handler invocation: outcome, number of metadata
lookups, the keys requested from the object store, the number of calls
into the generation engine (`sharp`), and the writes performed. -/
structure ImageRun where
  outcome : ImageOutcome
  lookups : Nat
  gets : List String
  generates : Nat
  puts : List (String × Bytes)
deriving DecidableEq

/-- A JavaScript value as it flows into `processImage`: an actual byte
buffer, or `undefined`. -/
inductive JsVal where
  | buf (b : Bytes)
  | undefined
deriving DecidableEq

/-- Model of `getImage(key).Body` as written at line 54 (and likewise at
the unreachable line 113): member access binds tighter than `await`, so
`.Body` is read off the *pending promise* returned by the async function
`getImage`, which has no such property.  The resulting value is
`undefined`, whatever the store holds. -/
def getImageBodyNoAwait : JsVal := .undefined

/-- Model of `processImage(buffer, width)` (line 25): `sharp` applied to a
real buffer produces the resized bytes (`gen` abstracts the resize
transformation of the external library, including whatever it does with
a non-numeric width); applied to `undefined` it rejects — the rejection
kind is modelled coarsely as `typeError` (the library raises its own
error class), which no claim distinguishes. -/
def processImage (gen : Bytes → String → Bytes) (v : JsVal) (width : String) :
    Except JsErr Bytes :=
  match v with
  | .buf b => .ok (gen b width)
  | .undefined => .error .typeError

/-- Model of `storeImage` (line 36): `putObject`, which succeeds or
rejects according to store availability. -/
def storeImage (st : ImageState) (_image : Bytes) (_name : String) :
    Except JsErr Unit :=
  if st.putOk then .ok () else .error .storeUnavailable

/-- Model of `resizeAndStoreImage` (lines 53-60).  Its first line,
`const buffer = await getImage(imageBaseKey).Body`, reads `.Body` off the
pending promise, so `buffer` is `undefined` and `processImage` rejects
before any generation or write can happen. -/
def resizeAndStoreImage (gen : Bytes → String → Bytes) (st : ImageState)
    (_imageBaseKey newImageKey : String) (desiredWidth : String) :
    Except JsErr (Bytes × List (String × Bytes)) :=
  match processImage gen getImageBodyNoAwait desiredWidth with
  | .error e => .error e
  | .ok image =>
    match storeImage st image newImageKey with
    | .error e => .error e
    | .ok _ => .ok (image, [(newImageKey, image)])

/-- Model of the image handler (lines 98-137) on an event carrying an
article id and a size query parameter.

Control flow of the source, traced:
1. line 105 awaits the metadata lookup; a rejected promise propagates out
   of the handler as the raw lookup error;
2. when the lookup resolves, `imageBaseKey` is the raw DynamoDB GetItem
   response — an object (`Item` envelope when the id is known, an empty
   object when it is not), never a string — so line 106
   (`imageBaseKey.replace(...)`) throws a
   `TypeError: imageBaseKey.replace is not a function` on every such
   request, whether or not the item exists;
3. lines 108-136 are therefore unreachable: the S3 client is never
   initialised, no `getObject` or `putObject` is ever issued, the
   `try`/`catch` with its 404 return never runs, and neither a 200 body
   nor the structured 404 is ever produced.

Consequently every invocation performs exactly one metadata lookup and
nothing else: no store call, no generation, no write. -/
def runImage (st : ImageState) (articleId _size : String) : ImageRun :=
  match st.meta articleId with
  | .unavailable => ⟨.thrown .lookupUnavailable, 1, [], 0, []⟩
  | .missing => ⟨.thrown .typeError, 1, [], 0, []⟩
  | .found _ => ⟨.thrown .typeError, 1, [], 0, []⟩

/-! ## Listing service: Redis ranges -/

/-- Redis LRANGE over the list a key holds, with the documented index
semantics: indices are zero-based, negative indices count from the end
(`-1` is the last element), out-of-range indices are clamped, and an
empty list is returned when the effective start exceeds the effective
stop. -/
def lrange {α : Type} (l : List α) (start stop : Int) : List α :=
  let len : Int := l.length
  let s := if start < 0 then max (len + start) 0 else start
  let e := min (if stop < 0 then len + stop else stop) (len - 1)
  if s > e then [] else (l.drop s.toNat).take (e + 1 - s).toNat

/-! ## Opaque cursor tokens

`_encodeNextToken` renders `type:nextIndex` and base64-encodes it
with Node `Buffer`; `_decodeNextToken` base64-decodes, splits on `:` and
applies `parseInt`.  Base64 and the ascii decode are implemented
concretely below. -/

/-- The 64 characters of the standard base64 alphabet, in index order. -/
def b64Alphabet : List Char :=
  ['A', 'B', 'C', 'D', 'E', 'F', 'G', 'H', 'I', 'J', 'K', 'L', 'M',
   'N', 'O', 'P', 'Q', 'R', 'S', 'T', 'U', 'V', 'W', 'X', 'Y', 'Z',
   'a', 'b', 'c', 'd', 'e', 'f', 'g', 'h', 'i', 'j', 'k', 'l', 'm',
   'n', 'o', 'p', 'q', 'r', 's', 't', 'u', 'v', 'w', 'x', 'y', 'z',
   '0', '1', '2', '3', '4', '5', '6', '7', '8', '9', '+', '/']

/-- Character for a sextet value. -/
def b64Ch (i : Nat) : Char := b64Alphabet.getD i '='

/-- Sextet value of a base64 character (its index in the alphabet). -/
def b64Val (c : Char) : Nat := b64Alphabet.indexOf c

/-- Base64 encoding of a byte list, including `=` padding, as
`Buffer.prototype.toString("base64")` produces it. -/
def b64EncodeList : List Nat → List Char
  | [] => []
  | [a] => [b64Ch (a / 4), b64Ch (a % 4 * 16), '=', '=']
  | [a, b] => [b64Ch (a / 4), b64Ch (a % 4 * 16 + b / 16), b64Ch (b % 16 * 4), '=']
  | a :: b :: c :: rest =>
    b64Ch (a / 4) :: b64Ch (a % 4 * 16 + b / 16) ::
      b64Ch (b % 16 * 4 + c / 64) :: b64Ch (c % 64) :: b64EncodeList rest

/-- Base64 decoding of a character list back to bytes, honouring `=`
padding, as `Buffer.from(s, "base64")` performs it. -/
def b64DecodeList : List Char → List Nat
  | c1 :: c2 :: c3 :: c4 :: rest =>
    if c3 = '=' then [b64Val c1 * 4 + b64Val c2 / 16]
    else if c4 = '=' then
      [b64Val c1 * 4 + b64Val c2 / 16, b64Val c2 % 16 * 16 + b64Val c3 / 4]
    else
      (b64Val c1 * 4 + b64Val c2 / 16) :: (b64Val c2 % 16 * 16 + b64Val c3 / 4) ::
        (b64Val c3 % 4 * 64 + b64Val c4) :: b64DecodeList rest
  | _ => []

/-- Is a character a decimal digit (for the leading-digit scan of
`parseInt`)? -/
def isDigitCh (c : Char) : Bool := 47 < c.toNat && c.toNat < 58

/-- Value of the leading run of decimal digits, or `none` when the run is
empty (the NaN case of `parseInt`). -/
def leadDigitsVal (cs : List Char) : Option Nat :=
  let ds := cs.takeWhile isDigitCh
  if ds.isEmpty then none
  else some (ds.foldl (fun a c => 10 * a + (c.toNat - 48)) 0)

/-- Model of JS `parseInt(str)` in base 10 on a character list: an
optional sign followed by leading digits; `none` stands for NaN. -/
def parseIntChars (cs : List Char) : Option Int :=
  match cs with
  | [] => none
  | c :: rest =>
    if c = '-' then
      match leadDigitsVal rest with
      | some k => some (-(k : Int))
      | none => none
    else if c = '+' then
      match leadDigitsVal rest with
      | some k => some ((k : Int))
      | none => none
    else
      match leadDigitsVal (c :: rest) with
      | some k => some ((k : Int))
      | none => none

/-- Split a character list on a separator character, JS
`String.prototype.split` style: `n` separators yield `n + 1` fields. -/
def splitOnChar (sep : Char) (l : List Char) : List (List Char) :=
  match l with
  | [] => [[]]
  | x :: xs =>
    let r := splitOnChar sep xs
    if x = sep then [] :: r
    else
      match r with
      | h :: t => (x :: h) :: t
      | [] => [[x]]

/-- Model of `_encodeNextToken(type, nextIndex)` (line 242): base64 of
the ascii bytes of `type:nextIndex`. -/
def encodeNextToken (type : String) (nextIndex : Int) : String :=
  ⟨b64EncodeList ((type.data ++ ':' :: intDigits nextIndex).map Char.toNat)⟩

/-- Model of `_decodeNextToken(nextToken)` (line 232) on a present string
token: base64-decode, read the bytes back as ascii (Node masks each byte
to 7 bits), split on `:`, and `parseInt` the second field.  `none` is the
NaN result (absent second field or no digits). -/
def decodeNextTokenStr (nextToken : String) : Option Int :=
  match splitOnChar ':'
      ((b64DecodeList nextToken.data).map (fun b => Char.ofNat (b % 128))) with
  | _ :: p :: _ => parseIntChars p
  | _ => none

/-! ## Listing service: article lists and the handler -/

/-- Successful payload of `_returnArticleList`: the ids and the opaque
`nextToken` (empty when pagination stops). -/
structure ListResult where
  ids : List String
  nextToken : String
deriving DecidableEq

/-- Model of `_returnArticleList(result, end)` (lines 163-182) on an
errorless pipeline result: `nextIndex` is `end + 1` while
`Math.min(length, 50) > end`, and the token is produced only when
`nextIndex` is truthy — the JS number `0` is falsy, so index `0` also
yields the empty token. -/
def returnArticleList (articleIds : List String) (totalLen : Nat) (e : Int) :
    ListResult :=
  let nextIndex : Option Int := if min (totalLen : Int) 50 > e then some (e + 1) else none
  ⟨articleIds,
    match nextIndex with
    | some k => if k = 0 then "" else encodeNextToken "Article" k
    | none => ""⟩

/-- Model of `getLatestArticles(start, limit)` (lines 189-204) on a
reachable Redis list: `end = start + limit - 1`, an LRANGE for the window
and an LLEN for the total, passed on to `returnArticleList`. -/
def getLatestArticles (latest : List String) (start limit : Int) : ListResult :=
  returnArticleList (lrange latest start (start + limit - 1)) latest.length
    (start + limit - 1)

/-- Model of `getPopularArticles(start, limit)` (lines 211-226): a
ZREVRANGE window over the leaderboard (held here as members in
descending-score order, paired with their scores) and a
`ZCOUNT key 0 +inf` total (members with non-negative score). -/
def getPopularArticles (popular : List (String × Int)) (start limit : Int) :
    ListResult :=
  returnArticleList ((lrange popular start (start + limit - 1)).map Prod.fst)
    (popular.countP (fun p => decide (0 ≤ p.2))) (start + limit - 1)

/-- Redis state the listing handler reads: the latest-content list and
the popular-content leaderboard. -/
structure ListingState where
  latest : List String
  popular : List (String × Int)

/-- Event of the listing handler: the action name and the GraphQL
arguments, where `none` models an absent (`undefined`) field. -/
structure ListEvent where
  action : String
  limit : Option Int
  nextToken : Option String

/-- Observable result of one listing-handler invocation.  `redisError`
stands for the error payload produced when a NaN start index reaches the
Redis pipeline (`_returnArticleList` then reports the command error). -/
inductive ListingOutcome where
  | ok (r : ListResult)
  | nullResult
  | redisError
  | thrown (e : JsErr)
deriving DecidableEq

/-- Model of the listing handler (lines 282-299).

`const start = nextToken !== "" ? _decodeNextToken(nextToken) : 0` runs
before the action switch.  When `nextToken` is absent (`undefined`) the
condition still holds, so `_decodeNextToken(undefined)` calls
`Buffer.from(undefined, "base64")`, which throws a `TypeError`: only the
exact empty string selects the start-of-list index 0.  A present
non-empty token is decoded; a NaN decode flows into the Redis pipeline
and surfaces as a command error on the two list actions. -/
def listingHandler (st : ListingState) (ev : ListEvent) : ListingOutcome :=
  let limit := ev.limit.getD 10
  match ev.nextToken with
  | none => .thrown .typeError
  | some t =>
    let startOpt : Option Int := if t = "" then some 0 else decodeNextTokenStr t
    if ev.action = "latestArticles" then
      match startOpt with
      | some start => .ok (getLatestArticles st.latest start limit)
      | none => .redisError
    else if ev.action = "popularArticles" then
      match startOpt with
      | some start => .ok (getPopularArticles st.popular start limit)
      | none => .redisError
    else if ev.action = "articleMetrics" then .nullResult
    else .thrown .noSuchMethod

/-! ## Sample worlds for the image-handler claims -/

/-- Concrete source bytes of the base asset in the sample worlds. -/
def sampleSourceBytes : Bytes := [10, 20, 30]

/-- World of the miss-then-populate scenario: the metadata table maps
article `123` to `articles/123.jpg`, the store holds only the base
asset, and writes would succeed. -/
def missState : ImageState :=
  ⟨fun id => if id = "123" then .found "articles/123.jpg" else .missing,
   fun k => if k = "articles/123.jpg" then .found sampleSourceBytes else .noSuchKey,
   true⟩

/-- Same world as `missState` except that `putObject` would fail. -/
def putFailState : ImageState :=
  ⟨fun id => if id = "123" then .found "articles/123.jpg" else .missing,
   fun k => if k = "articles/123.jpg" then .found sampleSourceBytes else .noSuchKey,
   false⟩

/-- Bytes stored under the derivative key in the cache-hit world. -/
def sampleDerivativeBytes : Bytes := [90, 91]

/-- World of the cache-hit scenario: both the base asset and the
derivative `articles/123-300.jpg` are present. -/
def hitState : ImageState :=
  ⟨fun id => if id = "123" then .found "articles/123.jpg" else .missing,
   fun k =>
     if k = "articles/123.jpg" then .found sampleSourceBytes
     else if k = "articles/123-300.jpg" then .found sampleDerivativeBytes
     else .noSuchKey,
   true⟩

/-- World in which no article id is known to the metadata table. -/
def unknownState : ImageState := ⟨fun _ => .missing, fun _ => .noSuchKey, true⟩

/-- Redis state used by the listing-claim witnesses. -/
def sampleListingState : ListingState :=
  ⟨["a", "b", "c", "d", "e"], [("p", 5), ("q", 3)]⟩

/-! ## Facts about key derivation -/

/-- A base key carrying the `.jpg` suffix decomposes as a stem plus the
suffix, and the `take` in `derive` recovers exactly the stem. -/
theorem derive_valid_eq (baseKey : String) (p : List Char)
    (hp : p ++ jpgSuffix = baseKey.data) (size : String) :
    (derive baseKey size).data = p ++ '-' :: (size.data ++ jpgSuffix) := by
  have hsuf : jpgSuffix <:+ baseKey.data := ⟨p, hp⟩
  have hlen : baseKey.data.length = p.length + 4 := by
    rw [← hp, List.length_append]; rfl
  have htake : baseKey.data.take (baseKey.data.length - 4) = p := by
    rw [hlen, Nat.add_sub_cancel, ← hp, List.take_left]
  simp only [derive, if_pos hsuf, htake]

/-! ## Claims about the image service -/

/-- C1.  Miss-then-populate fails in the code: with the base asset
present and the derivative absent, the handler neither returns the
generated bytes nor populates the store — it throws a `TypeError` at key
derivation (line 106, `.replace` on the DynamoDB response object),
performs no store call, no generation and no write, and leaves the
derivative key still missing afterwards. -/
theorem c1_miss_then_populate_bug :
    (runImage missState "123" "300").outcome = .thrown .typeError
  ∧ (runImage missState "123" "300").generates = 0
  ∧ (runImage missState "123" "300").puts = []
  ∧ (runImage missState "123" "300").gets = []
  ∧ missState.store (derive "articles/123.jpg" "300") = .noSuchKey := by
  refine ⟨rfl, rfl, rfl, rfl, ?_⟩
  decide

/-- C2.  Write-failure tolerance is unexercisable: on no request does
generation succeed — the handler throws at line 106 before any store
interaction, and even `resizeAndStoreImage` taken on its own rejects
before generating or writing, because its line 54 reads `.Body` off a
pending promise; in the concrete failing-put world the handler simply
throws. -/
theorem c2_write_failure_bug :
    (∀ (gen : Bytes → String → Bytes) (baseKey newKey w : String),
       resizeAndStoreImage gen putFailState baseKey newKey w = .error .typeError)
  ∧ (∀ (st : ImageState) (aid size : String),
       (runImage st aid size).generates = 0 ∧ (runImage st aid size).puts = [])
  ∧ (runImage putFailState "123" "300").outcome = .thrown .typeError := by
  refine ⟨fun gen baseKey newKey w => rfl, fun st aid size => ?_, rfl⟩
  cases hm : st.meta aid <;> simp [runImage, hm]

/-- C3 counterexample.  On a request whose derivative is already stored
(a cache hit), the Asset Metadata Lookup is nevertheless invoked — the
claim that it is never invoked on the fast path is false. -/
theorem c3_read_through_cex :
    hitState.store (derive "articles/123.jpg" "300") = .found sampleDerivativeBytes
  ∧ (runImage hitState "123" "300").lookups = 1 := by
  refine ⟨by decide, rfl⟩

/-- C3 amended.  On a cache-hit request the Generation Engine is indeed
never invoked, but the Asset Metadata Lookup is invoked exactly once,
and the stored blob is not returned — nor even read: the handler throws
a `TypeError` at key derivation (line 106, `.replace` on the DynamoDB
response object), so no `getObject` is ever issued, hit or miss. -/
theorem c3_read_through (st : ImageState) (aid size baseKey : String) (blob : Bytes)
    (hm : st.meta aid = .found baseKey)
    (_hhit : st.store (derive baseKey size) = .found blob) :
    (runImage st aid size).generates = 0
  ∧ (runImage st aid size).lookups = 1
  ∧ (runImage st aid size).gets = []
  ∧ (runImage st aid size).outcome = .thrown .typeError := by
  simp [runImage, hm]

/-- C3 witness. -/
theorem c3_read_through_witness :
    (hitState.meta "123" = .found "articles/123.jpg"
      ∧ hitState.store (derive "articles/123.jpg" "300") = .found sampleDerivativeBytes)
  ∧ ((runImage hitState "123" "300").generates = 0
      ∧ (runImage hitState "123" "300").lookups = 1
      ∧ (runImage hitState "123" "300").gets = []
      ∧ (runImage hitState "123" "300").outcome = .thrown .typeError) :=
  ⟨⟨by decide, by decide⟩,
   c3_read_through hitState "123" "300" "articles/123.jpg" sampleDerivativeBytes
     (by decide) (by decide)⟩

/-- C4 counterexample.  For an unknown content id the handler does not
return the structured 404 failure the claim requires: the lookup
resolves with an empty response object, whose `.replace` is not a
function, so line 106 throws a `TypeError`. -/
theorem c4_status_mapping_cex :
    (runImage unknownState "999" "300").outcome = .thrown .typeError
  ∧ (ImageOutcome.thrown .typeError) ≠ ImageOutcome.notFound404 := by
  exact ⟨rfl, by decide⟩

/-- C4 amended.  No failure kind is mapped to a distinguishing HTTP
status: every invocation throws — the raw lookup rejection when the
metadata store is unavailable, and a `TypeError` in every other case
(unknown id, store miss, store outage, and even a would-be success).
The 404 branch and any 500/502/503 mapping are unreachable: the handler
throws at key derivation (line 106), before the `try` block is ever
entered. -/
theorem c4_no_status_distinction (st : ImageState) (aid size : String) :
    (runImage st aid size).outcome =
      (match st.meta aid with
       | .unavailable => .thrown .lookupUnavailable
       | _ => .thrown .typeError) := by
  cases hm : st.meta aid <;> simp [runImage, hm]

/-- C5 counterexample.  For a base key that does not end in `.jpg`, two
distinct variants collide and the derived key equals the base key, so
the claim quantified over every base key is false. -/
theorem c5_key_injectivity_cex :
    derive "articles/123.png" "300" = derive "articles/123.png" "400"
  ∧ ("300" : String) ≠ "400"
  ∧ derive "articles/123.png" "300" = "articles/123.png" := by
  refine ⟨by decide, by decide, by decide⟩

/-- C5 amended.  For every base key that carries the `.jpg` asset-type
suffix, derivation is injective in the variant for the fixed base
(`derive baseKey v1 = derive baseKey v2` iff `v1 = v2`), and the derived
key never equals the base key (the spliced `-` makes it strictly
longer). -/
theorem c5_key_injectivity (baseKey v1 v2 : String)
    (h : jpgSuffix <:+ baseKey.data) :
    (derive baseKey v1 = derive baseKey v2 ↔ v1 = v2)
  ∧ derive baseKey v1 ≠ baseKey := by
  obtain ⟨p, hp⟩ := h
  refine ⟨⟨fun heq => ?_, fun heq => by rw [heq]⟩, fun heq => ?_⟩
  · have hdata := congrArg String.data heq
    rw [derive_valid_eq baseKey p hp v1, derive_valid_eq baseKey p hp v2] at hdata
    have h2 := List.append_cancel_left hdata
    have h3 := (List.cons.injEq _ _ _ _).mp h2
    exact String.ext (List.append_cancel_right h3.2)
  · have hdata := congrArg String.data heq
    rw [derive_valid_eq baseKey p hp v1, ← hp] at hdata
    have h2 := List.append_cancel_left hdata
    have h3 := congrArg List.length h2
    simp [jpgSuffix] at h3

/-- C5 witness. -/
theorem c5_key_injectivity_witness :
    (jpgSuffix <:+ "articles/123.jpg".data)
  ∧ ((derive "articles/123.jpg" "300" = derive "articles/123.jpg" "400" ↔
        ("300" : String) = "400")
      ∧ derive "articles/123.jpg" "300" ≠ "articles/123.jpg") :=
  ⟨by decide, c5_key_injectivity "articles/123.jpg" "300" "400" (by decide)⟩

/-- C6 counterexample.  A base key without the `.jpg` suffix is not
rejected: key derivation produces a key (the base key itself) instead of
failing with an InvalidKeyFormat error. -/
theorem c6_invalid_key_cex :
    derive "articles/999.webp" "300" = "articles/999.webp" := by decide

/-- C6 amended.  Key derivation never fails: when the base key does not
end in `.jpg`, the regex in `replace` matches nothing and the base key
is returned unchanged as the derivative key. -/
theorem c6_invalid_key_passthrough (baseKey size : String)
    (h : ¬ jpgSuffix <:+ baseKey.data) :
    derive baseKey size = baseKey := by
  simp [derive, h]

/-- C6 witness. -/
theorem c6_invalid_key_passthrough_witness :
    ¬ (jpgSuffix <:+ "news/42.gif".data)
  ∧ derive "news/42.gif" "512" = "news/42.gif" :=
  ⟨by decide, c6_invalid_key_passthrough "news/42.gif" "512" (by decide)⟩

/-- C7.  The concrete scenario of the spec: base key `articles/123.jpg`
with variant width `300` derives the key `articles/123-300.jpg`. -/
theorem c7_concrete_derivation :
    deriveN "articles/123.jpg" 300 = "articles/123-300.jpg" := by decide

/-! ## Decimal printing and parsing round-trip -/

/-- Digit characters have the expected ascii codes. -/
theorem digitCh_toNat : ∀ d, d < 10 → (digitCh d).toNat = 48 + d := by decide

/-- Every character the decimal printer emits is an ascii digit. -/
theorem natDigitsAux_digit (fuel : Nat) :
    ∀ n c, c ∈ natDigitsAux fuel n → 48 ≤ c.toNat ∧ c.toNat ≤ 57 := by
  induction fuel with
  | zero => intro n c hc; simp [natDigitsAux] at hc
  | succ f ih =>
    intro n c hc
    by_cases h10 : n < 10
    · simp [natDigitsAux, h10] at hc
      subst hc
      rw [digitCh_toNat n h10]
      omega
    · simp only [natDigitsAux, if_neg h10, List.mem_append, List.mem_singleton] at hc
      rcases hc with hc | hc
      · exact ih (n / 10) c hc
      · subst hc
        rw [digitCh_toNat (n % 10) (by omega)]
        omega

/-- Folding the digit-accumulation step over the printed digits recovers
the number. -/
theorem natDigitsAux_fold (fuel : Nat) :
    ∀ n, n < fuel →
      (natDigitsAux fuel n).foldl (fun a c => 10 * a + (c.toNat - 48)) 0 = n := by
  induction fuel with
  | zero => intro n h; omega
  | succ f ih =>
    intro n h
    by_cases h10 : n < 10
    · simp only [natDigitsAux, if_pos h10, List.foldl_cons, List.foldl_nil]
      rw [digitCh_toNat n h10]
      omega
    · have hdiv : n / 10 < n := Nat.div_lt_self (by omega) (by omega)
      simp only [natDigitsAux, if_neg h10, List.foldl_append, List.foldl_cons,
        List.foldl_nil]
      rw [ih (n / 10) (by omega), digitCh_toNat (n % 10) (by omega)]
      omega

/-- The printer never emits an empty digit list when it has fuel. -/
theorem natDigitsAux_ne_nil (fuel n : Nat) (h : 0 < fuel) :
    natDigitsAux fuel n ≠ [] := by
  cases fuel with
  | zero => omega
  | succ f =>
    by_cases h10 : n < 10 <;> simp [natDigitsAux, h10]

/-- A scan that accepts every element of a list takes all of it. -/
theorem takeWhile_of_all {α : Type} (p : α → Bool) :
    ∀ l : List α, (∀ c ∈ l, p c = true) → l.takeWhile p = l := by
  intro l h
  induction l with
  | nil => rfl
  | cons x xs ih =>
    simp only [List.takeWhile_cons, h x (by simp), if_pos]
    rw [ih (fun c hc => h c (by simp [hc]))]

/-- JS `parseInt` inverts the decimal printer on naturals. -/
theorem parseIntChars_digits (n : Nat) :
    parseIntChars (natDigits n) = some (n : Int) := by
  unfold natDigits
  obtain ⟨d, ds, hds⟩ :=
    List.exists_cons_of_ne_nil (natDigitsAux_ne_nil (n + 1) n (by omega))
  have hd : 48 ≤ d.toNat ∧ d.toNat ≤ 57 :=
    natDigitsAux_digit (n + 1) n d (by rw [hds]; exact List.mem_cons_self d ds)
  have hminus : d ≠ '-' := by
    intro he
    rw [he] at hd
    revert hd; decide
  have hplus : d ≠ '+' := by
    intro he
    rw [he] at hd
    revert hd; decide
  have hall : ∀ c ∈ d :: ds, isDigitCh c = true := by
    intro c hc
    have hr := natDigitsAux_digit (n + 1) n c (hds ▸ hc)
    simp only [isDigitCh, Bool.and_eq_true, decide_eq_true_eq]
    omega
  rw [hds]
  simp only [parseIntChars]
  rw [if_neg hminus, if_neg hplus]
  unfold leadDigitsVal
  rw [takeWhile_of_all isDigitCh (d :: ds) hall]
  simp only [List.isEmpty_cons, Bool.false_eq_true, if_false]
  rw [← hds, natDigitsAux_fold (n + 1) n (by omega)]

/-! ## Base64 round-trip -/

/-- Looking a sextet character back up in the alphabet recovers the
sextet. -/
theorem b64Val_b64Ch : ∀ i, i < 64 → b64Val (b64Ch i) = i := by decide

/-- No sextet character is the padding character. -/
theorem b64Ch_ne_pad : ∀ i, i < 64 → b64Ch i ≠ '=' := by decide

/-- Decoding a fully padded quadruple yields the single byte. -/
theorem b64DecodeList_pad2 (c1 c2 : Char) :
    b64DecodeList [c1, c2, '=', '='] = [b64Val c1 * 4 + b64Val c2 / 16] := by
  simp [b64DecodeList]

/-- Decoding a singly padded quadruple yields the two bytes. -/
theorem b64DecodeList_pad1 (c1 c2 c3 : Char) (h : c3 ≠ '=') :
    b64DecodeList [c1, c2, c3, '='] =
      [b64Val c1 * 4 + b64Val c2 / 16, b64Val c2 % 16 * 16 + b64Val c3 / 4] := by
  simp [b64DecodeList, h]

/-- Decoding an unpadded quadruple yields three bytes and recurses. -/
theorem b64DecodeList_full (c1 c2 c3 c4 : Char) (rest : List Char)
    (h3 : c3 ≠ '=') (h4 : c4 ≠ '=') :
    b64DecodeList (c1 :: c2 :: c3 :: c4 :: rest) =
      (b64Val c1 * 4 + b64Val c2 / 16) :: (b64Val c2 % 16 * 16 + b64Val c3 / 4) ::
        (b64Val c3 % 4 * 64 + b64Val c4) :: b64DecodeList rest := by
  simp [b64DecodeList, h3, h4]

/-- Base64 decoding inverts encoding on byte lists (fuelled induction on
the three-byte chunking). -/
theorem b64_roundtrip_fuel :
    ∀ fuel (bs : List Nat), bs.length ≤ fuel → (∀ x ∈ bs, x < 256) →
      b64DecodeList (b64EncodeList bs) = bs := by
  intro fuel
  induction fuel with
  | zero =>
    intro bs hlen _
    have hnil : bs = [] := List.eq_nil_of_length_eq_zero (by omega)
    subst hnil
    rfl
  | succ f ih =>
    intro bs hlen hb
    rcases bs with _ | ⟨a, _ | ⟨b, _ | ⟨c, rest⟩⟩⟩
    · rfl
    · have ha := hb a (by simp)
      rw [show b64EncodeList [a] = [b64Ch (a / 4), b64Ch (a % 4 * 16), '=', '='] from rfl]
      rw [b64DecodeList_pad2]
      rw [b64Val_b64Ch (a / 4) (by omega), b64Val_b64Ch (a % 4 * 16) (by omega)]
      simp only [List.cons.injEq, and_true]
      omega
    · have ha := hb a (by simp)
      have hbb := hb b (by simp)
      rw [show b64EncodeList [a, b] =
        [b64Ch (a / 4), b64Ch (a % 4 * 16 + b / 16), b64Ch (b % 16 * 4), '='] from rfl]
      rw [b64DecodeList_pad1 _ _ _ (b64Ch_ne_pad (b % 16 * 4) (by omega))]
      rw [b64Val_b64Ch (a / 4) (by omega), b64Val_b64Ch (a % 4 * 16 + b / 16) (by omega),
        b64Val_b64Ch (b % 16 * 4) (by omega)]
      simp only [List.cons.injEq, and_true]
      constructor <;> omega
    · have ha := hb a (by simp)
      have hbb := hb b (by simp)
      have hc := hb c (by simp)
      rw [show b64EncodeList (a :: b :: c :: rest) =
        b64Ch (a / 4) :: b64Ch (a % 4 * 16 + b / 16) :: b64Ch (b % 16 * 4 + c / 64) ::
          b64Ch (c % 64) :: b64EncodeList rest from rfl]
      rw [b64DecodeList_full _ _ _ _ _ (b64Ch_ne_pad (b % 16 * 4 + c / 64) (by omega))
        (b64Ch_ne_pad (c % 64) (by omega))]
      rw [b64Val_b64Ch (a / 4) (by omega), b64Val_b64Ch (a % 4 * 16 + b / 16) (by omega),
        b64Val_b64Ch (b % 16 * 4 + c / 64) (by omega), b64Val_b64Ch (c % 64) (by omega)]
      rw [ih rest (by simp at hlen; omega) (fun x hx => hb x (by simp [hx]))]
      simp only [List.cons.injEq, and_true]
      refine ⟨by omega, by omega, by omega⟩

/-- Base64 decoding inverts encoding on byte lists. -/
theorem b64_roundtrip (bs : List Nat) (hb : ∀ x ∈ bs, x < 256) :
    b64DecodeList (b64EncodeList bs) = bs :=
  b64_roundtrip_fuel bs.length bs le_rfl hb

/-- Encoding a non-empty byte list yields a non-empty character list. -/
theorem b64EncodeList_ne_nil : ∀ bs : List Nat, bs ≠ [] → b64EncodeList bs ≠ [] := by
  intro bs hbs
  rcases bs with _ | ⟨a, _ | ⟨b, _ | ⟨c, rest⟩⟩⟩ <;> simp [b64EncodeList] at hbs ⊢

/-! ## Ascii byte round-trip -/

/-- Reading the utf-8 bytes of 7-bit characters back with the Node
`ascii` decoding (mask to 7 bits) recovers the characters. -/
theorem ascii_map_roundtrip :
    ∀ cs : List Char, (∀ c ∈ cs, c.toNat < 128) →
      (cs.map Char.toNat).map (fun b => Char.ofNat (b % 128)) = cs := by
  intro cs h
  induction cs with
  | nil => rfl
  | cons x xs ih =>
    simp only [List.map_cons, List.cons.injEq]
    refine ⟨?_, ih (fun c hc => h c (by simp [hc]))⟩
    rw [Nat.mod_eq_of_lt (h x (by simp))]
    exact Char.ofNat_toNat x

/-! ## Splitting on the separator -/

/-- Splitting a separator-free list yields the single field. -/
theorem splitOnChar_no_sep (sep : Char) :
    ∀ l, sep ∉ l → splitOnChar sep l = [l] := by
  intro l hl
  induction l with
  | nil => rfl
  | cons x xs ih =>
    have hx : ¬ x = sep := fun he => hl (he ▸ List.mem_cons_self x xs)
    simp only [splitOnChar, if_neg hx, ih (fun hm => hl (List.mem_cons_of_mem x hm))]

/-- Splitting a list whose first field is separator-free peels off that
field. -/
theorem splitOnChar_append (sep : Char) :
    ∀ l1 l2, sep ∉ l1 →
      splitOnChar sep (l1 ++ sep :: l2) = l1 :: splitOnChar sep l2 := by
  intro l1
  induction l1 with
  | nil =>
    intro l2 _
    simp [splitOnChar]
  | cons x xs ih =>
    intro l2 hl
    have hx : ¬ x = sep := fun he => hl (he ▸ List.mem_cons_self x xs)
    have hih := ih l2 (fun hm => hl (List.mem_cons_of_mem x hm))
    simp only [List.cons_append, splitOnChar, if_neg hx, List.append_eq]
    rw [hih]

/-! ## Token round-trip -/

/-- The encoded token is never the empty string. -/
theorem encodeNextToken_ne_empty (type : String) (i : Int) :
    encodeNextToken type i ≠ "" := by
  intro h
  have hdata := congrArg String.data h
  have hne : (type.data ++ ':' :: intDigits i) ≠ [] := by simp
  have : ((type.data ++ ':' :: intDigits i).map Char.toNat) ≠ [] := by
    simp only [ne_eq, List.map_eq_nil_iff]
    exact hne
  exact b64EncodeList_ne_nil _ this hdata

/-- Decoding inverts encoding for the `Article` token type at any
non-negative index. -/
theorem decode_encode_article (i : Int) (h : 0 ≤ i) :
    decodeNextTokenStr (encodeNextToken "Article" i) = some i := by
  have hid : intDigits i = natDigits i.toNat := by
    unfold intDigits
    rw [if_neg (by omega)]
  have hdigit : ∀ c ∈ natDigits i.toNat, 48 ≤ c.toNat ∧ c.toNat ≤ 57 :=
    fun c hc => natDigitsAux_digit (i.toNat + 1) i.toNat c hc
  have hascii : ∀ c ∈ "Article".data ++ ':' :: natDigits i.toNat, c.toNat < 128 := by
    intro c hc
    rcases List.mem_append.mp hc with hc | hc
    · have harticle : ∀ c ∈ "Article".data, c.toNat < 128 := by decide
      exact harticle c hc
    · rcases List.mem_cons.mp hc with hc | hc
      · subst hc; decide
      · have := hdigit c hc; omega

  have h256 : ∀ x ∈ ("Article".data ++ ':' :: natDigits i.toNat).map Char.toNat,
      x < 256 := by
    intro x hx
    obtain ⟨c, hc, rfl⟩ := List.mem_map.mp hx
    have := hascii c hc
    omega
  unfold encodeNextToken decodeNextTokenStr
  rw [hid]
  rw [show (String.mk (b64EncodeList
        (("Article".data ++ ':' :: natDigits i.toNat).map Char.toNat))).data =
      b64EncodeList (("Article".data ++ ':' :: natDigits i.toNat).map Char.toNat)
    from rfl]
  rw [b64_roundtrip _ h256, ascii_map_roundtrip _ hascii]
  have hsep : ':' ∉ "Article".data := by decide
  have hnodig : ':' ∉ natDigits i.toNat := by
    intro hm
    have := hdigit ':' hm
    revert this; decide
  rw [splitOnChar_append ':' "Article".data (natDigits i.toNat) hsep,
    splitOnChar_no_sep ':' (natDigits i.toNat) hnodig]
  rw [show (match ["Article".data, natDigits i.toNat] with
      | _ :: p :: _ => parseIntChars p
      | _ => none) = parseIntChars (natDigits i.toNat) from rfl]
  rw [parseIntChars_digits i.toNat]
  rw [Int.toNat_of_nonneg h]

/-! ## The requested window of a Redis range read -/

/-- For a non-negative start and a positive limit, the LRANGE window
`start .. start + limit - 1` holds exactly `min limit (length - start)`
elements: the full requested page, clamped only by the end of the
list. -/
theorem length_lrange_window {α : Type} (l : List α) (start limit : Int)
    (hs : 0 ≤ start) (hl : 1 ≤ limit) :
    (lrange l start (start + limit - 1)).length =
      min limit.toNat (l.length - start.toNat) := by
  simp only [lrange]
  rw [if_neg (by omega : ¬ start < 0), if_neg (by omega : ¬ start + limit - 1 < 0)]
  by_cases hc : start > min (start + limit - 1) ((l.length : Int) - 1)
  · rw [if_pos hc]
    simp only [List.length_nil]
    omega
  · rw [if_neg hc]
    rw [List.length_take, List.length_drop]
    omega

/-- The `nextToken` produced by `_returnArticleList` for the window
ending at `start + limit - 1`: non-empty exactly when
`min(totalLen, 50) > end`, in which case it decodes back to
`start + limit`. -/
theorem returnArticleList_nextToken (ids : List String) (totalLen : Nat)
    (start limit : Int) (hs : 0 ≤ start) (hl : 1 ≤ limit) :
    ((returnArticleList ids totalLen (start + limit - 1)).nextToken ≠ "" ↔
       min (totalLen : Int) 50 > start + limit - 1)
  ∧ (min (totalLen : Int) 50 > start + limit - 1 →
       decodeNextTokenStr (returnArticleList ids totalLen (start + limit - 1)).nextToken =
         some (start + limit)) := by
  by_cases hc : min (totalLen : Int) 50 > start + limit - 1
  · have hk : ¬ (start + limit - 1 + 1 = 0) := by omega
    have htok : (returnArticleList ids totalLen (start + limit - 1)).nextToken =
        encodeNextToken "Article" (start + limit - 1 + 1) := by
      simp only [returnArticleList, if_pos hc]
      rw [if_neg hk]
    refine ⟨?_, fun _ => ?_⟩
    · rw [htok]
      exact iff_of_true (encodeNextToken_ne_empty _ _) hc
    · rw [htok, show start + limit - 1 + 1 = start + limit by omega]
      exact decode_encode_article _ (by omega)
  · have htok : (returnArticleList ids totalLen (start + limit - 1)).nextToken = "" := by
      simp only [returnArticleList, if_neg hc]
    refine ⟨?_, fun h => absurd h hc⟩
    rw [htok]
    exact iff_of_false (by simp) hc

/-! ## Claims about the listing service -/

/-- C8 counterexample.  A single request with limit 60 against a
60-element list returns 60 ids: result sets are not capped at 50. -/
theorem c8_listing_cap_cex :
    ¬ ((getLatestArticles (List.replicate 60 "x") 0 60).ids.length ≤ 50) := by
  decide

/-- C8 amended.  Both listings return the full requested window —
`min limit (length - start)` ids, with no 50 cap on the size of a single
result set; the constant 50 only stops pagination via `nextToken`. -/
theorem c8_listing_uncapped (latest : List String) (popular : List (String × Int))
    (start limit : Int) (hs : 0 ≤ start) (hl : 1 ≤ limit) :
    (getLatestArticles latest start limit).ids.length =
      min limit.toNat (latest.length - start.toNat)
  ∧ (getPopularArticles popular start limit).ids.length =
      min limit.toNat (popular.length - start.toNat) := by
  constructor
  · exact length_lrange_window latest start limit hs hl
  · show ((lrange popular start (start + limit - 1)).map Prod.fst).length = _
    rw [List.length_map]
    exact length_lrange_window popular start limit hs hl

/-- C8 witness. -/
theorem c8_listing_uncapped_witness :
    ((0 : Int) ≤ 0 ∧ (1 : Int) ≤ 2)
  ∧ ((getLatestArticles sampleListingState.latest 0 2).ids.length =
       min (2 : Int).toNat (sampleListingState.latest.length - (0 : Int).toNat)
      ∧ (getPopularArticles sampleListingState.popular 0 2).ids.length =
          min (2 : Int).toNat (sampleListingState.popular.length - (0 : Int).toNat)) :=
  ⟨⟨by decide, by decide⟩,
   c8_listing_uncapped sampleListingState.latest sampleListingState.popular 0 2
     (by decide) (by decide)⟩

/-- C9.  The start index defaults to 0 only for the exact empty-string
token: an absent (`undefined`) `nextToken` is fed to `_decodeNextToken`,
whose `Buffer.from(undefined, "base64")` throws a `TypeError`, so a
first-page request without a `nextToken` field never reaches the
start-of-list read; a present non-empty token is decoded and its value
is the start index used. -/
theorem c9_absent_token_decodes (st : ListingState) (lim : Option Int)
    (act t : String) (k : Int) :
    listingHandler st ⟨act, lim, none⟩ = .thrown .typeError
  ∧ listingHandler st ⟨"latestArticles", lim, some ""⟩ =
      .ok (getLatestArticles st.latest 0 (lim.getD 10))
  ∧ (t ≠ "" → decodeNextTokenStr t = some k →
      listingHandler st ⟨"latestArticles", lim, some t⟩ =
        .ok (getLatestArticles st.latest k (lim.getD 10))) := by
  refine ⟨rfl, by simp [listingHandler], fun h1 h2 => ?_⟩
  simp [listingHandler, h1, h2]

/-- C9 witness. -/
theorem c9_absent_token_decodes_witness :
    (encodeNextToken "Article" 1 ≠ ""
      ∧ decodeNextTokenStr (encodeNextToken "Article" 1) = some 1)
  ∧ listingHandler sampleListingState
      ⟨"latestArticles", some 2, some (encodeNextToken "Article" 1)⟩ =
      .ok (getLatestArticles sampleListingState.latest 1 2) :=
  ⟨⟨encodeNextToken_ne_empty "Article" 1, decode_encode_article 1 (by omega)⟩,
   (c9_absent_token_decodes sampleListingState (some 2) "latestArticles"
       (encodeNextToken "Article" 1) 1).2.2
     (encodeNextToken_ne_empty "Article" 1) (decode_encode_article 1 (by omega))⟩

/-- C10 counterexample.  At start 0 and limit 0 against a 3-element list
the response is successful and `min(totalLen, 50) > start + limit - 1`
holds, yet `nextToken` is empty: the claimed biconditional fails (the
next index 0 is falsy in JS). -/
theorem c10_next_token_cex :
    (getLatestArticles ["a", "b", "c"] 0 0).nextToken = ""
  ∧ min ((["a", "b", "c"] : List String).length : Int) 50 > 0 + 0 - 1 := by
  exact ⟨by decide, by decide⟩

/-- C10 amended.  For start ≥ 0 and limit ≥ 1 (so the falsy next index 0
cannot arise): in both listings `nextToken` is non-empty exactly when
`min(totalLen, 50) > start + limit - 1` (with `totalLen` the list length
for the latest listing and the ZCOUNT total for the popular one), it
then decodes to `start + limit`, and otherwise it is the empty
string. -/
theorem c10_next_token_amended (latest : List String) (popular : List (String × Int))
    (start limit : Int) (hs : 0 ≤ start) (hl : 1 ≤ limit) :
    (((getLatestArticles latest start limit).nextToken ≠ "" ↔
        min (latest.length : Int) 50 > start + limit - 1)
      ∧ (min (latest.length : Int) 50 > start + limit - 1 →
          decodeNextTokenStr (getLatestArticles latest start limit).nextToken =
            some (start + limit)))
  ∧ (((getPopularArticles popular start limit).nextToken ≠ "" ↔
        min ((popular.countP fun p => decide (0 ≤ p.2)) : Int) 50 > start + limit - 1)
      ∧ (min ((popular.countP fun p => decide (0 ≤ p.2)) : Int) 50 > start + limit - 1 →
          decodeNextTokenStr (getPopularArticles popular start limit).nextToken =
            some (start + limit))) :=
  ⟨returnArticleList_nextToken _ _ start limit hs hl,
   returnArticleList_nextToken _ _ start limit hs hl⟩

/-- C10 witness. -/
theorem c10_next_token_amended_witness :
    ((0 : Int) ≤ 0 ∧ (1 : Int) ≤ 2)
  ∧ ((((getLatestArticles sampleListingState.latest 0 2).nextToken ≠ "" ↔
        min (sampleListingState.latest.length : Int) 50 > 0 + 2 - 1)
      ∧ (min (sampleListingState.latest.length : Int) 50 > 0 + 2 - 1 →
          decodeNextTokenStr (getLatestArticles sampleListingState.latest 0 2).nextToken =
            some (0 + 2)))
    ∧ (((getPopularArticles sampleListingState.popular 0 2).nextToken ≠ "" ↔
        min ((sampleListingState.popular.countP fun p => decide (0 ≤ p.2)) : Int) 50 >
          0 + 2 - 1)
      ∧ (min ((sampleListingState.popular.countP fun p => decide (0 ≤ p.2)) : Int) 50 >
          0 + 2 - 1 →
          decodeNextTokenStr (getPopularArticles sampleListingState.popular 0 2).nextToken =
            some (0 + 2)))) :=
  ⟨⟨by decide, by decide⟩,
   c10_next_token_amended sampleListingState.latest sampleListingState.popular 0 2
     (by decide) (by decide)⟩

end AwsNews
